import Mathlib

/-!
Verification development for the `riscy` RV32IMFD userspace interpreter.

The definitions below are a shallow embedding of `src/core.rs`,
`src/instruction.rs` and `src/load.rs`.  Machine integers are modelled as
`Int` (for Rust's `i32`) and `Nat` (for `u32`/`usize`/`u64` bit patterns),
with explicit two's-complement wrapping where the source relies on casts or
wrapping arithmetic.  Operations whose source can `assert!`/`panic!` are
modelled with `Option`, `none` standing for an abort of the engine.
-/

namespace Riscy

/-- Two's-complement wrap of an integer into the `i32` range
`[-2^31, 2^31)`; models Rust `as i32` casts and `wrapping_*` results. -/
def wrap32 (z : Int) : Int := (z + 2 ^ 31) % 2 ^ 32 - 2 ^ 31

/-- Reinterpret an `i32` value as a `u32` bit pattern; models `as u32`. -/
def toU32 (z : Int) : Nat := (z % 2 ^ 32).toNat

/-- Low byte of an `i32`; models `as u8`. -/
def toU8 (z : Int) : Nat := (z % 2 ^ 8).toNat

/-- Reinterpret an `i32` as a 64-bit `usize` (sign extension followed by
reinterpretation); models `idx as usize` on a 64-bit host. -/
def toUsize (z : Int) : Nat := (z % 2 ^ 64).toNat

/-- An `i32` value, i.e. an integer in `[-2^31, 2^31)`. -/
def isI32 (z : Int) : Prop := -2 ^ 31 ≤ z ∧ z < 2 ^ 31

instance (z : Int) : Decidable (isI32 z) := by unfold isI32; infer_instance

/-- The decoded operation record (enum `Instruction` in
`src/instruction.rs`).  Register fields are the 5-bit indices (`u8` in
the source), immediates are sign-extended `i32` values. -/
inductive Instruction where
  | Unknown (val : Nat)
  | Lui (rd : Nat) (imm : Int)
  | Auipc (rd : Nat) (imm : Int)
  | Jal (rd : Nat) (imm : Int)
  | Jalr (rd rs1 : Nat) (imm : Int)
  | Beq (rs1 rs2 : Nat) (imm : Int)
  | Bne (rs1 rs2 : Nat) (imm : Int)
  | Blt (rs1 rs2 : Nat) (imm : Int)
  | Bge (rs1 rs2 : Nat) (imm : Int)
  | Bltu (rs1 rs2 : Nat) (imm : Int)
  | Bgeu (rs1 rs2 : Nat) (imm : Int)
  | Lb (rd rs1 : Nat) (imm : Int)
  | Lh (rd rs1 : Nat) (imm : Int)
  | Lw (rd rs1 : Nat) (imm : Int)
  | Lbu (rd rs1 : Nat) (imm : Int)
  | Lhu (rd rs1 : Nat) (imm : Int)
  | Sb (rs1 rs2 : Nat) (imm : Int)
  | Sh (rs1 rs2 : Nat) (imm : Int)
  | Sw (rs1 rs2 : Nat) (imm : Int)
  | Addi (rd rs1 : Nat) (imm : Int)
  | Slti (rd rs1 : Nat) (imm : Int)
  | Sltiu (rd rs1 : Nat) (imm : Int)
  | Xori (rd rs1 : Nat) (imm : Int)
  | Ori (rd rs1 : Nat) (imm : Int)
  | Andi (rd rs1 : Nat) (imm : Int)
  | Slli (rd rs1 shamt : Nat)
  | Srli (rd rs1 shamt : Nat)
  | Srai (rd rs1 shamt : Nat)
  | Add (rd rs1 rs2 : Nat)
  | Sub (rd rs1 rs2 : Nat)
  | Sll (rd rs1 rs2 : Nat)
  | Slt (rd rs1 rs2 : Nat)
  | Sltu (rd rs1 rs2 : Nat)
  | Xor (rd rs1 rs2 : Nat)
  | Srl (rd rs1 rs2 : Nat)
  | Sra (rd rs1 rs2 : Nat)
  | Or (rd rs1 rs2 : Nat)
  | And (rd rs1 rs2 : Nat)
  | Fence (pred succ : Nat)
  | FenceI
  | Ecall
  | Ebreak
  | Frrm (rd : Nat)
  | Fsrm (rd rs1 : Nat)
  | Mul (rd rs1 rs2 : Nat)
  | Mulh (rd rs1 rs2 : Nat)
  | Mulhsu (rd rs1 rs2 : Nat)
  | Mulhu (rd rs1 rs2 : Nat)
  | Div (rd rs1 rs2 : Nat)
  | Divu (rd rs1 rs2 : Nat)
  | Rem (rd rs1 rs2 : Nat)
  | Remu (rd rs1 rs2 : Nat)
  | FaddS (rd rs1 rs2 rm : Nat)
  | FsubS (rd rs1 rs2 rm : Nat)
  | FmulS (rd rs1 rs2 rm : Nat)
  | FmaddS (rd rs1 rs2 rs3 rm : Nat)
  | FmsubS (rd rs1 rs2 rs3 rm : Nat)
  | FnmaddS (rd rs1 rs2 rs3 rm : Nat)
  | FnmsubS (rd rs1 rs2 rs3 rm : Nat)
  | FdivS (rd rs1 rs2 rm : Nat)
  | FsgnjS (rd rs1 rs2 : Nat)
  | FsgnjnS (rd rs1 rs2 : Nat)
  | FsgnjxS (rd rs1 rs2 : Nat)
  | FsqrtS (rd rs1 rm : Nat)
  | FsqrtD (rd rs1 rm : Nat)
  | FminS (rd rs1 rs2 : Nat)
  | FmaxS (rd rs1 rs2 : Nat)
  | FaddD (rd rs1 rs2 rm : Nat)
  | FsubD (rd rs1 rs2 rm : Nat)
  | FmulD (rd rs1 rs2 rm : Nat)
  | FmaddD (rd rs1 rs2 rs3 rm : Nat)
  | FmsubD (rd rs1 rs2 rs3 rm : Nat)
  | FnmaddD (rd rs1 rs2 rs3 rm : Nat)
  | FnmsubD (rd rs1 rs2 rs3 rm : Nat)
  | FdivD (rd rs1 rs2 rm : Nat)
  | FsgnjD (rd rs1 rs2 : Nat)
  | FsgnjnD (rd rs1 rs2 : Nat)
  | FsgnjxD (rd rs1 rs2 : Nat)
  | FminD (rd rs1 rs2 : Nat)
  | FmaxD (rd rs1 rs2 : Nat)
  | FmvSW (rd rs1 : Nat)
  | FmvWS (rd rs1 : Nat)
  | FclassS (rd rs1 : Nat)
  | FclassD (rd rs1 : Nat)
  | FmvXD (rd rs1 : Nat)
  | FmvDX (rd rs1 : Nat)
  | FcvtSW (rd rs1 : Nat)
  | FcvtSWu (rd rs1 : Nat)
  | FcvtWS (rd rs1 : Nat)
  | FcvtWuS (rd rs1 : Nat)
  | FcvtDW (rd rs1 : Nat)
  | FcvtDWu (rd rs1 : Nat)
  | FcvtWD (rd rs1 : Nat)
  | FcvtWuD (rd rs1 : Nat)
  | FcvtSD (rd rs1 : Nat)
  | FcvtDS (rd rs1 : Nat)
  | FeqS (rd rs1 rs2 : Nat)
  | FltS (rd rs1 rs2 : Nat)
  | FleS (rd rs1 rs2 : Nat)
  | FeqD (rd rs1 rs2 : Nat)
  | FltD (rd rs1 rs2 : Nat)
  | FleD (rd rs1 rs2 : Nat)
  | Flw (rd rs1 : Nat) (imm : Int)
  | Fld (rd rs1 : Nat) (imm : Int)
  | Fsw (rs1 rs2 : Nat) (imm : Int)
  | Fsd (rs1 rs2 : Nat) (imm : Int)
deriving Repr

namespace Instruction

/-- The helper `sign_extend(val, bits)` of `Instruction::decode`:
`((val << (32 - bits)) as i32) >> (32 - bits)` with an arithmetic right
shift (floor division by a power of two on the `i32` view). -/
def signExtend (val : Nat) (bits : Nat) : Int :=
  (wrap32 ((val * 2 ^ (32 - bits)) % 2 ^ 32)).fdiv (2 ^ (32 - bits))

/-- `Instruction::decode` from `src/instruction.rs`: total pure decoder
from a 32-bit word (here a `Nat` < 2^32) to an operation record. -/
def decode (inst : Nat) : Instruction :=
  let opcode := inst % 2 ^ 7
  let rd := inst / 2 ^ 7 % 2 ^ 5
  let funct3 := inst / 2 ^ 12 % 2 ^ 3
  let rs1 := inst / 2 ^ 15 % 2 ^ 5
  let rs2 := inst / 2 ^ 20 % 2 ^ 5
  let sz := inst / 2 ^ 25 % 2 ^ 2
  let rs3 := inst / 2 ^ 27 % 2 ^ 5
  let funct7 := inst / 2 ^ 25 % 2 ^ 7
  let rm := inst / 2 ^ 12 % 2 ^ 3
  match opcode with
  | 0x37 =>
      .Lui rd (wrap32 (inst / 2 ^ 12 % 2 ^ 20 * 2 ^ 12))
  | 0x17 =>
      .Auipc rd (wrap32 (inst / 2 ^ 12 % 2 ^ 20 * 2 ^ 12))
  | 0x6f =>
      let immRaw := inst / 2 ^ 31 % 2 * 2 ^ 20 + inst / 2 ^ 12 % 2 ^ 8 * 2 ^ 12
        + inst / 2 ^ 20 % 2 * 2 ^ 11 + inst / 2 ^ 21 % 2 ^ 10 * 2
      .Jal rd (signExtend immRaw 21)
  | 0x67 =>
      if funct3 = 0 then
        .Jalr rd rs1 (signExtend (inst / 2 ^ 20 % 2 ^ 12) 12)
      else .Unknown inst
  | 0x63 =>
      let immRaw := inst / 2 ^ 31 % 2 * 2 ^ 12 + inst / 2 ^ 7 % 2 * 2 ^ 11
        + inst / 2 ^ 25 % 2 ^ 6 * 2 ^ 5 + inst / 2 ^ 8 % 2 ^ 4 * 2
      let imm := signExtend immRaw 13
      match funct3 with
      | 0 => .Beq rs1 rs2 imm
      | 1 => .Bne rs1 rs2 imm
      | 4 => .Blt rs1 rs2 imm
      | 5 => .Bge rs1 rs2 imm
      | 6 => .Bltu rs1 rs2 imm
      | 7 => .Bgeu rs1 rs2 imm
      | _ => .Unknown inst
  | 0x03 =>
      let imm := signExtend (inst / 2 ^ 20 % 2 ^ 12) 12
      match funct3 with
      | 0 => .Lb rd rs1 imm
      | 1 => .Lh rd rs1 imm
      | 2 => .Lw rd rs1 imm
      | 4 => .Lbu rd rs1 imm
      | 5 => .Lhu rd rs1 imm
      | _ => .Unknown inst
  | 0x23 =>
      let immRaw := inst / 2 ^ 25 % 2 ^ 7 * 2 ^ 5 + inst / 2 ^ 7 % 2 ^ 5
      let imm := signExtend immRaw 12
      match funct3 with
      | 0 => .Sb rs1 rs2 imm
      | 1 => .Sh rs1 rs2 imm
      | 2 => .Sw rs1 rs2 imm
      | _ => .Unknown inst
  | 0x13 =>
      match funct3 with
      | 0 => .Addi rd rs1 (signExtend (inst / 2 ^ 20 % 2 ^ 12) 12)
      | 2 => .Slti rd rs1 (signExtend (inst / 2 ^ 20 % 2 ^ 12) 12)
      | 3 => .Sltiu rd rs1 (signExtend (inst / 2 ^ 20 % 2 ^ 12) 12)
      | 4 => .Xori rd rs1 (signExtend (inst / 2 ^ 20 % 2 ^ 12) 12)
      | 6 => .Ori rd rs1 (signExtend (inst / 2 ^ 20 % 2 ^ 12) 12)
      | 7 => .Andi rd rs1 (signExtend (inst / 2 ^ 20 % 2 ^ 12) 12)
      | 1 => .Slli rd rs1 (inst / 2 ^ 20 % 2 ^ 5)
      | 5 =>
          let shamt := inst / 2 ^ 20 % 2 ^ 5
          let f7 := inst / 2 ^ 25
          if f7 = 0 then .Srli rd rs1 shamt
          else if f7 = 0x20 then .Srai rd rs1 shamt
          else .Unknown inst
      | _ => .Unknown inst
  | 0x33 =>
      if funct7 = 0x1 then
        match funct3 with
        | 0x0 => .Mul rd rs1 rs2
        | 0x1 => .Mulh rd rs1 rs2
        | 0x2 => .Mulhsu rd rs1 rs2
        | 0x3 => .Mulhu rd rs1 rs2
        | 0x4 => .Div rd rs1 rs2
        | 0x5 => .Divu rd rs1 rs2
        | 0x6 => .Rem rd rs1 rs2
        | 0x7 => .Remu rd rs1 rs2
        | _ => .Unknown inst
      else
        match funct3 with
        | 0 =>
            if funct7 = 0 then .Add rd rs1 rs2
            else if funct7 = 0x20 then .Sub rd rs1 rs2
            else .Unknown inst
        | 1 => .Sll rd rs1 rs2
        | 2 => .Slt rd rs1 rs2
        | 3 => .Sltu rd rs1 rs2
        | 4 => .Xor rd rs1 rs2
        | 5 =>
            if funct7 = 0 then .Srl rd rs1 rs2
            else if funct7 = 0x20 then .Sra rd rs1 rs2
            else .Unknown inst
        | 6 => .Or rd rs1 rs2
        | 7 => .And rd rs1 rs2
        | _ => .Unknown inst
  | 0x0f =>
      if funct3 = 0 then .Fence (inst / 2 ^ 24 % 2 ^ 4) (inst / 2 ^ 20 % 2 ^ 4)
      else if funct3 = 1 then .FenceI
      else .Unknown inst
  | 0x73 =>
      let imm := inst / 2 ^ 20 % 2 ^ 12
      if funct3 = 0 ∧ imm = 0 then .Ecall
      else if funct3 = 0 ∧ imm = 1 then .Ebreak
      else if funct3 = 2 ∧ imm = 2 then .Frrm rd
      else if funct3 = 2 ∧ imm = 1 then .Fsrm rd rs1
      else .Unknown inst
  | 0x53 =>
      match funct7 with
      | 0x00 => .FaddS rd rs1 rs2 rm
      | 0x2C => if rs2 = 0 then .FsqrtS rd rs1 rm else .Unknown inst
      | 0x2D => if rs2 = 0 then .FsqrtS rd rs1 rm else .Unknown inst
      | 0x04 => .FsubS rd rs1 rs2 rm
      | 0x08 => .FmulS rd rs1 rs2 rm
      | 0x0c => .FdivS rd rs1 rs2 rm
      | 0x10 =>
          match funct3 with
          | 0x0 => .FsgnjS rd rs1 rs2
          | 0x1 => .FsgnjnS rd rs1 rs2
          | 0x2 => .FsgnjxS rd rs1 rs2
          | _ => .Unknown inst
      | 0x11 =>
          match funct3 with
          | 0x0 => .FsgnjD rd rs1 rs2
          | 0x1 => .FsgnjnD rd rs1 rs2
          | 0x2 => .FsgnjxD rd rs1 rs2
          | _ => .Unknown inst
      | 0x14 =>
          match funct3 with
          | 0x0 => .FminS rd rs1 rs2
          | 0x1 => .FmaxS rd rs1 rs2
          | _ => .Unknown inst
      | 0x15 =>
          match funct3 with
          | 0x0 => .FminD rd rs1 rs2
          | 0x1 => .FmaxD rd rs1 rs2
          | _ => .Unknown inst
      | 0x50 =>
          match funct3 with
          | 0x0 => .FleS rd rs1 rs2
          | 0x1 => .FltS rd rs1 rs2
          | 0x2 => .FeqS rd rs1 rs2
          | _ => .Unknown inst
      | 0x01 => .FaddD rd rs1 rs2 rm
      | 0x05 => .FsubD rd rs1 rs2 rm
      | 0x09 => .FmulD rd rs1 rs2 rm
      | 0x0d => .FdivD rd rs1 rs2 rm
      | 0x51 =>
          match funct3 with
          | 0x0 => .FleD rd rs1 rs2
          | 0x1 => .FltD rd rs1 rs2
          | 0x2 => .FeqD rd rs1 rs2
          | _ => .Unknown inst
      | 0x60 =>
          match rs2 with
          | 0x0 => .FcvtWS rd rs1
          | 0x1 => .FcvtWuS rd rs1
          | _ => .Unknown inst
      | 0x68 =>
          match rs2 with
          | 0x0 => .FcvtSW rd rs1
          | 0x1 => .FcvtSWu rd rs1
          | _ => .Unknown inst
      | 0x61 =>
          match rs2 with
          | 0x0 => .FcvtWD rd rs1
          | 0x1 => .FcvtWuD rd rs1
          | _ => .Unknown inst
      | 0x69 =>
          match rs2 with
          | 0x0 => .FcvtDW rd rs1
          | 0x1 => .FcvtDWu rd rs1
          | _ => .Unknown inst
      | 0x78 => .FmvWS rd rs1
      | 0x79 => .FmvXD rd rs1
      | 0x70 =>
          match funct3 with
          | 0x0 => .FmvSW rd rs1
          | 0x1 => .FclassS rd rs1
          | _ => .Unknown inst
      | 0x71 =>
          match funct3 with
          | 0x0 => .FmvDX rd rs1
          | 0x1 => .FclassD rd rs1
          | _ => .Unknown inst
      | 0x7d => .FcvtWuD rd rs1
      | 0x20 => .FcvtSD rd rs1
      | 0x21 => .FcvtDS rd rs1
      | _ => .Unknown inst
  | 0x43 =>
      match sz with
      | 0x0 => .FmaddS rd rs1 rs2 rs3 rm
      | 0x1 => .FmaddD rd rs1 rs2 rs3 rm
      | _ => .Unknown inst
  | 0x47 =>
      match sz with
      | 0x0 => .FmsubS rd rs1 rs2 rs3 rm
      | 0x1 => .FmsubD rd rs1 rs2 rs3 rm
      | _ => .Unknown inst
  | 0x4F =>
      match sz with
      | 0x0 => .FnmaddS rd rs1 rs2 rs3 rm
      | 0x1 => .FnmaddD rd rs1 rs2 rs3 rm
      | _ => .Unknown inst
  | 0x4B =>
      match sz with
      | 0x0 => .FnmsubS rd rs1 rs2 rs3 rm
      | 0x1 => .FnmsubD rd rs1 rs2 rs3 rm
      | _ => .Unknown inst
  | 0x07 =>
      let imm := signExtend (inst / 2 ^ 20) 12
      match funct3 with
      | 0x2 => .Flw rd rs1 imm
      | 0x3 => .Fld rd rs1 imm
      | _ => .Unknown inst
  | 0x27 =>
      let immVal := inst / 2 ^ 25 * 2 ^ 5 + inst / 2 ^ 7 % 2 ^ 5
      let imm := signExtend immVal 12
      match funct3 with
      | 0x2 => .Fsw rs1 rs2 imm
      | 0x3 => .Fsd rs1 rs2 imm
      | _ => .Unknown inst
  | _ => .Unknown inst

end Instruction

/-! ## Register files and FCSR (`src/core.rs`, `Regfile` / `FpRegfile`) -/

/-- The integer register file (`struct Regfile`).  The source stores 32
`i32` entries accessed unchecked with a 5-bit index; the decoder only
produces indices below 32, so the array is modelled as a function from
the index. -/
structure Regfile where
  registers : Nat → Int
deriving Inhabited

namespace Regfile

/-- `Regfile::read`: index 0 yields the literal zero, any other index the
stored value. -/
def read (rf : Regfile) (idx : Nat) : Int :=
  if idx = 0 then 0 else rf.registers idx

/-- `Regfile::write`: a store to any index other than 0; a write to
index 0 does nothing. -/
def write (rf : Regfile) (idx : Nat) (v : Int) : Regfile :=
  if idx ≠ 0 then ⟨Function.update rf.registers idx v⟩ else rf

end Regfile

/-- The FCSR rounding-mode field (`enum RoundingMode`), six defined
encodings; 0b101 and 0b110 are reserved. -/
inductive RoundingMode where
  | RNE | RTZ | RDN | RUP | RMM | DYN
deriving DecidableEq, Repr, Inhabited

namespace RoundingMode

/-- The `repr(u8)` discriminant of each mode, as read by `rm as i32`. -/
def toInt : RoundingMode → Int
  | .RNE => 0b000
  | .RTZ => 0b001
  | .RDN => 0b010
  | .RUP => 0b011
  | .RMM => 0b100
  | .DYN => 0b111

/-- `TryFrom<i32> for RoundingMode` (`src/core.rs` lines 143–157):
reserved encodings are rejected. -/
def tryFrom (value : Int) : Option RoundingMode :=
  if value = 0b000 then some .RNE
  else if value = 0b001 then some .RTZ
  else if value = 0b010 then some .RDN
  else if value = 0b011 then some .RUP
  else if value = 0b100 then some .RMM
  else if value = 0b111 then some .DYN
  else none

end RoundingMode

/-- `struct Fcsr`: the dynamic rounding mode and the five accrued
exception flags (present but never computed by the core). -/
structure Fcsr where
  rm : RoundingMode
  nv : Bool
  dz : Bool
  uf : Bool
  of : Bool
  nx : Bool
deriving DecidableEq, Repr, Inhabited

/-- The floating-point register file (`struct FpRegfile`).  Each entry is
the 64-bit bit pattern of the `union FpReg`; `read_double`/`write_double`
view the whole pattern as an IEEE double (kept as raw bits here). -/
structure FpRegfile where
  registers : Nat → Nat
  fcsr : Fcsr
deriving Inhabited

namespace FpRegfile

/-- `FpRegfile::read_double` — the stored 64-bit pattern. -/
def readDouble (rf : FpRegfile) (idx : Nat) : Nat := rf.registers idx

/-- `FpRegfile::write_double` — replace the 64-bit pattern. -/
def writeDouble (rf : FpRegfile) (idx : Nat) (bits : Nat) : FpRegfile :=
  { rf with registers := Function.update rf.registers idx bits }

end FpRegfile

/-! ## The memory arena (`src/core.rs`, `struct Memory`)

`bytes` gives the byte stored at every offset; offsets at or beyond
`size` stand for whatever host memory sits next to the arena allocation,
so that an unchecked raw-pointer write outside the arena is visible in
the model.  Operations that `assert!` containment return `Option`,
`none` being the fatal `OutOfBounds` abort. -/

structure Mem where
  size : Nat
  bytes : Nat → Nat

namespace Mem

/-- `Memory::load::<T>`: asserts `addr + size_of::<T>() <= size`, then
reads `n = size_of::<T>()` bytes little-endian. -/
def load (m : Mem) (addr n : Nat) : Option Nat :=
  if addr + n ≤ m.size then
    some ((List.range n).foldr (fun i acc => m.bytes (addr + i) * 2 ^ (8 * i) + acc) 0)
  else none

/-- `Memory::store::<T>`: asserts containment, then writes the `n`
little-endian bytes of `val`. -/
def store (m : Mem) (addr n : Nat) (val : Nat) : Option Mem :=
  if addr + n ≤ m.size then
    some { m with bytes := fun a =>
      if addr ≤ a ∧ a < addr + n then val / 2 ^ (8 * (a - addr)) % 2 ^ 8 else m.bytes a }
  else none

/-- `Memory::get_buf`: asserts `addr + len <= size` and returns the byte
range (the mutable slice handed to syscall I/O). -/
def getBuf (m : Mem) (addr len : Nat) : Option (List Nat) :=
  if addr + len ≤ m.size then
    some ((List.range len).map fun i => m.bytes (addr + i))
  else none

/-- `Memory::memset`: `ptr::write_bytes` at raw offset `idx as usize`
for `length as usize` bytes — no containment check of any kind. -/
def memset (m : Mem) (idx value length : Int) : Mem :=
  { m with bytes := fun a =>
      if toUsize idx ≤ a ∧ a < toUsize idx + toUsize length then toU8 value
      else m.bytes a }

/-- `Memory::memcpy`: `ptr::copy_nonoverlapping` with raw offsets and no
containment check (the source bytes are read before the destination is
written; the source requires the ranges not to overlap). -/
def memcpy (m : Mem) (dest src length : Int) : Mem :=
  { m with bytes := fun a =>
      if toUsize dest ≤ a ∧ a < toUsize dest + toUsize length then
        m.bytes (toUsize src + (a - toUsize dest))
      else m.bytes a }

/-- `Memory::memmove`: `ptr::copy` (overlap-safe, as if through a
temporary buffer) with raw offsets and no containment check. -/
def memmove (m : Mem) (dest src length : Int) : Mem :=
  { m with bytes := fun a =>
      if toUsize dest ≤ a ∧ a < toUsize dest + toUsize length then
        m.bytes (toUsize src + (a - toUsize dest))
      else m.bytes a }

end Mem

/-! ## Intercept table and engine state (`src/core.rs`, `Core32`) -/

/-- The five weak-symbol intercept addresses carried from `LoadedElf`
into `Core32` (`wk_*` fields). -/
structure Intercepts where
  wkMemmove : Nat
  wkMemcpy : Nat
  wkMemset : Nat
  wkCos : Nat
  wkSin : Nat
deriving DecidableEq, Repr

/-- The engine state mutated by `Core32::run`: program counter, the two
register files, the arena, and the intercept table. -/
structure Core32 where
  pc : Nat
  gp : Regfile
  fp : FpRegfile
  memory : Mem
  intercepts : Intercepts

/-- `enum ExecResult`: the outcome of dispatching one instruction. -/
inductive ExecResult where
  | Continue
  | Jump (pc : Nat)
  | Call (pc : Nat)
  | Exit
deriving DecidableEq, Repr

/-- One turn of the `run` loop after `exec` returned: either the loop
continues with a new state or `run` returns a status code. -/
inductive StepOutcome where
  | next (st : Core32)
  | done (returnCode : Int)

/-! ## The `LoadedElf` intercept scan (`src/load.rs` lines 54–68) -/

/-- One step of the symbol scan of `LoadedElf::load`: a matching symbol
name overwrites its entry with `st_value as u32`, anything else is
ignored. -/
def scanStep (it : Intercepts) (sv : String × Nat) : Intercepts :=
  match sv.1 with
  | "memset" => { it with wkMemset := sv.2 % 2 ^ 32 }
  | "memmove" => { it with wkMemmove := sv.2 % 2 ^ 32 }
  | "memcpy" => { it with wkMemcpy := sv.2 % 2 ^ 32 }
  | "cos" => { it with wkCos := sv.2 % 2 ^ 32 }
  | "sin" => { it with wkSin := sv.2 % 2 ^ 32 }
  | _ => it

/-- The symbol scan of `LoadedElf::load` (lines 54–68): the five entries
start at 0 and each symbol is matched by name in turn. -/
def scanIntercepts (symbols : List (String × Nat)) : Intercepts :=
  symbols.foldl scanStep ⟨0, 0, 0, 0, 0⟩

/-! ## Instruction fetch (`Core32::run`, lines 469–498) -/

/-- The instruction-cache construction: every 32-bit word of the text
segment is pre-decoded (`words` are the little-endian words of
`text.data`, `data.len() / 4` of them). -/
def buildInsCache (words : List Nat) : List Instruction :=
  words.map Instruction.decode

/-- The fetch of `Core32::run`: `rel_pc = pc - vaddr` (a `usize`
subtraction) followed by `ins_cache.get_unchecked(rel_pc / 4)`.  The
lookup is performed with no range check whatsoever: when `pc < vaddr`
the subtraction underflows and when `rel_pc / 4` is past the cache the
unchecked index reads out of bounds.  Both are modelled as `none`; in
particular there is no fall-back decode of the arena. -/
def fetch (vaddr : Nat) (insCache : List Instruction) (pc : Nat) :
    Option Instruction :=
  if h : vaddr ≤ pc ∧ (pc - vaddr) / 4 < insCache.length then
    some (insCache.get ⟨(pc - vaddr) / 4, h.2⟩)
  else none

/-! ## Dispatch arms of `Core32::exec` used by the claims -/

/-- The `Instruction::Div` arm (`src/core.rs` lines 790–803).
`wrapping_div` is truncated division wrapped into `i32`. -/
def execDiv (st : Core32) (rd rs1 rs2 : Nat) : Core32 :=
  let dividend := st.gp.read rs1
  let divisor := st.gp.read rs2
  let res :=
    if divisor = 0 then -1
    else if dividend = -2 ^ 31 ∧ divisor = -1 then dividend
    else wrap32 (dividend.tdiv divisor)
  { st with gp := st.gp.write rd res }

/-- The `Instruction::Rem` arm (`src/core.rs` lines 816–829).
`wrapping_rem` is truncated remainder wrapped into `i32`. -/
def execRem (st : Core32) (rd rs1 rs2 : Nat) : Core32 :=
  let dividend := st.gp.read rs1
  let divisor := st.gp.read rs2
  let res :=
    if divisor = 0 then dividend
    else if dividend = -2 ^ 31 ∧ divisor = -1 then 0
    else wrap32 (dividend.tmod divisor)
  { st with gp := st.gp.write rd res }

/-- The `Instruction::Fsrm` arm (`src/core.rs` lines 1302–1308): the old
mode is written to `rd` first, then the new mode is read from `rs1` and
installed; `expect` on a reserved encoding is the `none` abort. -/
def execFsrm (st : Core32) (rd rs1 : Nat) : Option Core32 :=
  let rm := st.fp.fcsr.rm
  let st1 := { st with gp := st.gp.write rd rm.toInt }
  match RoundingMode.tryFrom (st1.gp.read rs1) with
  | some newRm => some { st1 with fp := { st1.fp with fcsr := { st1.fp.fcsr with rm := newRm } } }
  | none => none

/-- The host side of the two I/O syscalls, abstracted: the byte counts
the host `write`/`read` calls report (each at most the guest-supplied
count) and the data a host `read` delivers. -/
structure HostIO where
  writeCount : Nat
  readCount : Nat
  readBytes : Nat → Nat

/-- The `Instruction::Ecall` arm (`src/core.rs` lines 1256–1297).
`a7` (x17) selects the syscall; exit returns `ExecResult::Exit`; write
and read borrow the buffer via `get_buf` (fatal when out of range, the
file descriptor in `a0` is passed to the host call abstracted by `io`)
and put the host count into `a0`; brk and unknown numbers only log.
The arm falls through to `ExecResult::Continue` unless it exits. -/
def execEcall (io : HostIO) (st : Core32) : Option (Core32 × ExecResult) :=
  let syscall := st.gp.read 17
  if syscall = 93 then
    some (st, .Exit)
  else if syscall = 64 then
    let buf := st.gp.read 11
    let count := st.gp.read 12
    match st.memory.getBuf (toU32 buf) (toU32 count) with
    | none => none
    | some _ =>
        let n := min io.writeCount (toU32 count)
        some ({ st with gp := st.gp.write 10 (wrap32 n) }, .Continue)
  else if syscall = 63 then
    let buf := st.gp.read 11
    let count := st.gp.read 12
    match st.memory.getBuf (toU32 buf) (toU32 count) with
    | none => none
    | some _ =>
        let n := min io.readCount (toU32 count)
        let filled : Nat → Nat := fun a =>
          if toU32 buf ≤ a ∧ a < toU32 buf + n then io.readBytes (a - toU32 buf)
          else st.memory.bytes a
        let mem := { st.memory with bytes := filled }
        some ({ st with memory := mem, gp := st.gp.write 10 (wrap32 n) }, .Continue)
  else if syscall = 214 then
    some (st, .Continue)
  else
    some (st, .Continue)

/-! ## The advance step of `Core32::run` (lines 504–554) -/

/-- The interception block on a `Call(pc)` result (lines 508–550).  The
self-call check precedes everything; then the target is compared against
the intercept entries in the source's order memset, memcpy, memmove,
cos, sin; the host trig routines are abstract functions on double bit
patterns.  A non-intercepted call just assigns the target to `pc`. -/
def handleCall (hostCos hostSin : Nat → Nat) (st : Core32) (target : Nat) :
    StepOutcome :=
  if st.pc = target then
    .done 0
  else if target = st.intercepts.wkMemset then
    let dst := st.gp.read 10
    let value := st.gp.read 11
    let count := st.gp.read 12
    let st1 := { st with memory := st.memory.memset dst value count }
    .next { st1 with pc := toU32 (st1.gp.read 1) }
  else if target = st.intercepts.wkMemcpy then
    let dst := st.gp.read 10
    let src := st.gp.read 11
    let count := st.gp.read 12
    let st1 := { st with memory := st.memory.memcpy dst src count }
    .next { st1 with pc := toU32 (st1.gp.read 1) }
  else if target = st.intercepts.wkMemmove then
    let dst := st.gp.read 10
    let src := st.gp.read 11
    let count := st.gp.read 12
    let st1 := { st with memory := st.memory.memmove dst src count }
    .next { st1 with pc := toU32 (st1.gp.read 1) }
  else if target = st.intercepts.wkCos then
    let arg := st.fp.readDouble 10
    let st1 := { st with fp := st.fp.writeDouble 10 (hostCos arg) }
    .next { st1 with pc := toU32 (st1.gp.read 1) }
  else if target = st.intercepts.wkSin then
    let arg := st.fp.readDouble 10
    let st1 := { st with fp := st.fp.writeDouble 10 (hostSin arg) }
    .next { st1 with pc := toU32 (st1.gp.read 1) }
  else
    .next { st with pc := target }

/-- The `match self.exec(instr)` block of the run loop (lines 504–554):
`Jump` assigns pc, `Call` goes through the intercept block, `Continue`
advances pc by four, `Exit` returns the value of `a0` (x10). -/
def runDispatch (hostCos hostSin : Nat → Nat) (st : Core32) (r : ExecResult) :
    StepOutcome :=
  match r with
  | .Jump pc => .next { st with pc := pc }
  | .Call pc => handleCall hostCos hostSin st pc
  | .Continue => .next { st with pc := (st.pc + 4) % 2 ^ 32 }
  | .Exit => .done (st.gp.read 10)

/-! ## Claim-side vocabulary for the intercept dispatch -/

/-- Names for the five intercepted routines. -/
inductive InterceptKind where
  | memset | memcpy | memmove | cos | sin
deriving DecidableEq, Repr

/-- The intercept-table entry a kind selects. -/
def interceptEntry (it : Intercepts) : InterceptKind → Nat
  | .memset => it.wkMemset
  | .memcpy => it.wkMemcpy
  | .memmove => it.wkMemmove
  | .cos => it.wkCos
  | .sin => it.wkSin

/-- The ELF symbol name of an intercept kind. -/
def interceptSymbol : InterceptKind → String
  | .memset => "memset"
  | .memcpy => "memcpy"
  | .memmove => "memmove"
  | .cos => "cos"
  | .sin => "sin"

/-- Stated from the claim: the first zero-valued entry in the fixed
check order memset, memcpy, memmove, cos, sin. -/
def firstZeroEntry (it : Intercepts) : Option InterceptKind :=
  if it.wkMemset = 0 then some .memset
  else if it.wkMemcpy = 0 then some .memcpy
  else if it.wkMemmove = 0 then some .memmove
  else if it.wkCos = 0 then some .cos
  else if it.wkSin = 0 then some .sin
  else none

/-- The effect of one intercepted host routine on the engine state (the
body of the corresponding branch of the intercept block: run the host
routine on the a0/a1/a2 or fa0 arguments and restore pc from the
return-address register x1). -/
def applyIntercept (hostCos hostSin : Nat → Nat) (k : InterceptKind)
    (st : Core32) : Core32 :=
  match k with
  | .memset =>
      let st1 := { st with memory := st.memory.memset (st.gp.read 10) (st.gp.read 11) (st.gp.read 12) }
      { st1 with pc := toU32 (st1.gp.read 1) }
  | .memcpy =>
      let st1 := { st with memory := st.memory.memcpy (st.gp.read 10) (st.gp.read 11) (st.gp.read 12) }
      { st1 with pc := toU32 (st1.gp.read 1) }
  | .memmove =>
      let st1 := { st with memory := st.memory.memmove (st.gp.read 10) (st.gp.read 11) (st.gp.read 12) }
      { st1 with pc := toU32 (st1.gp.read 1) }
  | .cos =>
      let st1 := { st with fp := st.fp.writeDouble 10 (hostCos (st.fp.readDouble 10)) }
      { st1 with pc := toU32 (st1.gp.read 1) }
  | .sin =>
      let st1 := { st with fp := st.fp.writeDouble 10 (hostSin (st.fp.readDouble 10)) }
      { st1 with pc := toU32 (st1.gp.read 1) }

/-- Recogniser for the double-precision square-root record. -/
def Instruction.isFsqrtD : Instruction → Bool
  | .FsqrtD _ _ _ => true
  | _ => false

/-- A convenient engine state with the given integer-register contents,
zeroed floating-point bank, default FCSR, a 16-byte arena and an empty
intercept table. -/
def mkState (f : Nat → Int) : Core32 where
  pc := 0
  gp := ⟨f⟩
  fp := ⟨fun _ => 0, ⟨.RNE, false, false, false, false, false⟩⟩
  memory := ⟨16, fun _ => 0⟩
  intercepts := ⟨0, 0, 0, 0, 0⟩

/-! ## General lemmas about the embedding -/

theorem wrap32_eq_self {z : Int} (h : isI32 z) : wrap32 z = z := by
  obtain ⟨h1, h2⟩ := h
  unfold wrap32
  rw [Int.emod_eq_of_lt (by omega) (by omega)]
  omega

theorem Regfile.read_zero (rf : Regfile) : rf.read 0 = 0 := rfl

theorem Regfile.write_zero (rf : Regfile) (v : Int) : rf.write 0 v = rf := rfl

theorem Regfile.read_write_self (rf : Regfile) {j : Nat} (v : Int) (hj : j ≠ 0) :
    (rf.write j v).read j = v := by
  simp [Regfile.read, Regfile.write, hj]

theorem Regfile.read_write_other (rf : Regfile) {i k : Nat} (v : Int) (hk : k ≠ i) :
    (rf.write i v).read k = rf.read k := by
  unfold Regfile.read Regfile.write
  by_cases hi : i = 0
  · simp [hi]
  · by_cases h0 : k = 0
    · simp [h0, hi]
    · simp [h0, hi, Function.update_noteq hk]

theorem RoundingMode.tryFrom_toInt (m : RoundingMode) :
    RoundingMode.tryFrom m.toInt = some m := by
  cases m <;> rfl

theorem tmod_neg_left (a b : Int) : (-a).tmod b = -(a.tmod b) := by
  rw [Int.tmod_def, Int.tmod_def, Int.neg_tdiv, Int.mul_neg]; ring

/-- Truncated remainder by a nonzero divisor is strictly below the
divisor in magnitude. -/
theorem tmod_bounds {d s : Int} (hs : s ≠ 0) :
    -s.natAbs < d.tmod s ∧ d.tmod s < s.natAbs := by
  have hb : 0 < (s.natAbs : Int) := by
    have := Int.natAbs_pos.mpr hs
    exact_mod_cast this
  have hms : d.tmod s = d.tmod s.natAbs := by
    rcases Int.natAbs_eq s with h | h
    · conv_lhs => rw [h]
    · conv_lhs => rw [h, Int.tmod_neg]
  rcases le_or_lt 0 d with hd | hd
  · have h1 : 0 ≤ d.tmod (s.natAbs : Int) := Int.tmod_nonneg _ hd
    have h2 : d.tmod (s.natAbs : Int) < s.natAbs := Int.tmod_lt_of_pos d hb
    rw [hms]
    constructor <;> omega
  · have h1 : 0 ≤ (-d).tmod (s.natAbs : Int) := Int.tmod_nonneg _ (by omega)
    have h2 : (-d).tmod (s.natAbs : Int) < s.natAbs := Int.tmod_lt_of_pos (-d) hb
    have h3 : (-d).tmod (s.natAbs : Int) = -(d.tmod (s.natAbs : Int)) :=
      tmod_neg_left d _
    rw [hms]
    constructor <;> omega

/-- The truncated quotient of two in-range `i32` values is in range
except in the `INT_MIN / -1` overflow case. -/
theorem isI32_tdiv {d s : Int} (hd : isI32 d) (hs : isI32 s) (hs0 : s ≠ 0)
    (hov : ¬(d = -2 ^ 31 ∧ s = -1)) : isI32 (d.tdiv s) := by
  obtain ⟨hd1, hd2⟩ := hd
  obtain ⟨hs1, hs2⟩ := hs
  by_cases h1 : s = 1
  · subst h1; rw [Int.tdiv_one]; exact ⟨hd1, hd2⟩
  by_cases hm1 : s = -1
  · subst hm1
    have hdm : d ≠ -2 ^ 31 := fun h => hov ⟨h, rfl⟩
    have : d.tdiv (-1) = -d := by
      have h := Int.tdiv_neg d 1
      rw [Int.tdiv_one] at h
      exact h
    rw [this]
    constructor <;> omega
  · have habs2 : 2 ≤ s.natAbs := by omega
    have habs : (d.tdiv s).natAbs = d.natAbs / s.natAbs := Int.natAbs_tdiv d s
    have hda : d.natAbs ≤ 2 ^ 31 := by omega
    have hle : d.natAbs / s.natAbs ≤ d.natAbs / 2 :=
      Nat.div_le_div_left habs2 (by omega)
    have hlt : d.natAbs / 2 ≤ 2 ^ 30 := by omega
    have : (d.tdiv s).natAbs ≤ 2 ^ 30 := by omega
    constructor <;> omega

/-- The truncated remainder of in-range `i32` values (nonzero divisor)
is in range. -/
theorem isI32_tmod {d s : Int} (hs : isI32 s) (hs0 : s ≠ 0) :
    isI32 (d.tmod s) := by
  obtain ⟨hs1, hs2⟩ := hs
  obtain ⟨h1, h2⟩ := tmod_bounds (d := d) hs0
  have : s.natAbs ≤ 2 ^ 31 := by omega
  constructor <;> omega

/-! ## Claim theorems -/

/-- C3: reading integer register 0 yields zero before and after any
register-file operation, a write to index 0 leaves the whole file
unchanged, and a nonzero index returns the value last written to it
(the write is observed at that index and no other index changes). -/
theorem c3_regfile_zero_and_last_write (rf : Regfile) (i j : Nat) (v : Int)
    (hj : j ≠ 0) :
    rf.read 0 = 0 ∧
    rf.write 0 v = rf ∧
    (rf.write j v).read j = v ∧
    (∀ k, k ≠ j → (rf.write j v).read k = rf.read k) ∧
    (rf.write i v).read 0 = 0 := by
  refine ⟨rfl, rfl, Regfile.read_write_self rf v hj, ?_, ?_⟩
  · intro k hk
    exact Regfile.read_write_other rf v hk
  · by_cases hi : i = 0
    · subst hi; rfl
    · exact Regfile.read_write_other rf v (Ne.symm hi)

theorem c3_regfile_zero_and_last_write_witness :
    Regfile.read ⟨fun _ => 7⟩ 0 = 0 ∧
    Regfile.write ⟨fun _ => 7⟩ 0 5 = ⟨fun _ => 7⟩ ∧
    (Regfile.write ⟨fun _ => 7⟩ 1 5).read 1 = 5 ∧
    (∀ k, k ≠ 1 → (Regfile.write ⟨fun _ => 7⟩ 1 5).read k = Regfile.read ⟨fun _ => 7⟩ k) ∧
    (Regfile.write ⟨fun _ => 7⟩ 2 5).read 0 = 0 :=
  c3_regfile_zero_and_last_write ⟨fun _ => 7⟩ 2 1 5 (by decide)

/-- C8: a dispatched `Call` whose target equals the pc of the calling
instruction makes the run loop return status 0 immediately, for every
state (in particular independently of `a0`) and before any intercept
check. -/
theorem c8_self_call_returns_zero (hostCos hostSin : Nat → Nat) (st : Core32) :
    runDispatch hostCos hostSin st (.Call st.pc) = .done 0 := by
  simp [runDispatch, handleCall]

theorem c8_self_call_returns_zero_witness :
    runDispatch id id (mkState fun _ => 9) (.Call (mkState fun _ => 9).pc) = .done 0 :=
  c8_self_call_returns_zero id id (mkState fun _ => 9)

/-- C9: an `ecall` whose `a7` is none of 93, 64, 63, 214 leaves the
entire engine state untouched (both register files, FCSR, memory) and
the run loop then continues at pc + 4. -/
theorem c9_unknown_ecall_is_noop (io : HostIO) (hostCos hostSin : Nat → Nat)
    (st : Core32)
    (h93 : st.gp.read 17 ≠ 93) (h64 : st.gp.read 17 ≠ 64)
    (h63 : st.gp.read 17 ≠ 63) (h214 : st.gp.read 17 ≠ 214) :
    execEcall io st = some (st, .Continue) ∧
    runDispatch hostCos hostSin st .Continue =
      .next { st with pc := (st.pc + 4) % 2 ^ 32 } := by
  constructor
  · simp [execEcall, h93, h64, h63, h214]
  · rfl

theorem c9_unknown_ecall_is_noop_witness :
    execEcall ⟨0, 0, fun _ => 0⟩ (mkState fun _ => 5) =
      some (mkState fun _ => 5, .Continue) ∧
    runDispatch id id (mkState fun _ => 5) .Continue =
      .next { mkState fun _ => 5 with pc := ((mkState fun _ => 5).pc + 4) % 2 ^ 32 } :=
  c9_unknown_ecall_is_noop ⟨0, 0, fun _ => 0⟩ id id (mkState fun _ => 5)
    (by decide) (by decide) (by decide) (by decide)

/-- C4 (failing input): with the text segment at address 0 holding one
word (a single cached instruction), a fetch at pc = 4 — one word past
the text segment — performs the unchecked cache lookup out of range
(modelled `none`); the engine does not fall back to decoding the arena.
A fetch inside the segment does hit the cache. -/
theorem c4_fetch_past_text_does_not_fall_back :
    fetch 0 (buildInsCache [0x00000073]) 4 = none ∧
    fetch 0 (buildInsCache [0x00000073]) 0 = some .Ecall := by
  constructor <;> rfl

/-- C7 (failing input): the instruction word 0x5A000553 — opcode 0x53,
funct7 0x2D, rs2 = 0, rd = 10, i.e. `fsqrt.d fa0, ft0` — decodes to the
single-precision record `FsqrtS`, not to `FsqrtD`; its execution
therefore performs a single-precision square root. -/
theorem c7_fsqrt_d_decodes_as_fsqrt_s :
    Instruction.decode 0x5A000553 = .FsqrtS 10 0 0 ∧
    (Instruction.decode 0x5A000553).isFsqrtD = false := by
  constructor <;> rfl

/-- Stated from the claim: the `div` result — −1 on a zero divisor,
INT_MIN in the overflow case, otherwise the truncated-toward-zero
quotient. -/
def divSpec (dividend divisor : Int) : Int :=
  if divisor = 0 then -1
  else if dividend = -2 ^ 31 ∧ divisor = -1 then -2 ^ 31
  else dividend.tdiv divisor

/-- Stated from the claim: the `rem` result — the dividend on a zero
divisor, 0 in the overflow case, otherwise the truncated remainder. -/
def remSpec (dividend divisor : Int) : Int :=
  if divisor = 0 then dividend
  else if dividend = -2 ^ 31 ∧ divisor = -1 then 0
  else dividend.tmod divisor

/-- C1: for in-range operand values, the `div` arm writes to `rd`
exactly the claim's case split (with the genuine truncated quotient,
not merely its wrap), and the `rem` arm the claim's remainder cases. -/
theorem c1_div_rem_semantics (st : Core32) (rd rs1 rs2 : Nat)
    (h1 : isI32 (st.gp.read rs1)) (h2 : isI32 (st.gp.read rs2)) :
    execDiv st rd rs1 rs2 =
      { st with gp := st.gp.write rd (divSpec (st.gp.read rs1) (st.gp.read rs2)) } ∧
    execRem st rd rs1 rs2 =
      { st with gp := st.gp.write rd (remSpec (st.gp.read rs1) (st.gp.read rs2)) } := by
  constructor
  · have hval :
        (if st.gp.read rs2 = 0 then -1
         else if st.gp.read rs1 = -2 ^ 31 ∧ st.gp.read rs2 = -1 then st.gp.read rs1
         else wrap32 ((st.gp.read rs1).tdiv (st.gp.read rs2))) =
          divSpec (st.gp.read rs1) (st.gp.read rs2) := by
      unfold divSpec
      split_ifs with hz hov
      · rfl
      · exact hov.1
      · exact wrap32_eq_self (isI32_tdiv h1 h2 hz hov)
    show { st with gp := st.gp.write rd _ } = _
    rw [hval]
  · have hval :
        (if st.gp.read rs2 = 0 then st.gp.read rs1
         else if st.gp.read rs1 = -2 ^ 31 ∧ st.gp.read rs2 = -1 then 0
         else wrap32 ((st.gp.read rs1).tmod (st.gp.read rs2))) =
          remSpec (st.gp.read rs1) (st.gp.read rs2) := by
      unfold remSpec
      split_ifs with hz hov
      · rfl
      · rfl
      · exact wrap32_eq_self (isI32_tmod h2 hz)
    show { st with gp := st.gp.write rd _ } = _
    rw [hval]

/-- The concrete machine used to witness C1: x6 holds 7, x7 holds −3. -/
def divSt : Core32 := mkState fun i => if i = 6 then 7 else if i = 7 then -3 else 0

theorem c1_div_rem_semantics_witness :
    execDiv divSt 5 6 7 =
      { divSt with gp := divSt.gp.write 5 (divSpec (divSt.gp.read 6) (divSt.gp.read 7)) } ∧
    execRem divSt 5 6 7 =
      { divSt with gp := divSt.gp.write 5 (remSpec (divSt.gp.read 6) (divSt.gp.read 7)) } :=
  c1_div_rem_semantics divSt 5 6 7 (by decide) (by decide)

/-- C2 (counterexample): `memset` through the arena at offset 4 of a
4-byte arena writes one byte wholly outside the arena and does not
abort — the byte just past the arena changes from 0 to 171. -/
theorem c2_memset_writes_outside_arena :
    ((⟨4, fun _ => 0⟩ : Mem).memset 4 171 1).bytes 4 = 171 ∧
    (⟨4, fun _ => 0⟩ : Mem).bytes 4 = 0 ∧
    (⟨4, fun _ => 0⟩ : Mem).size ≤ 4 := by
  refine ⟨by decide, rfl, by decide⟩

/-- C2 (amended): the typed `load`/`store` and `get_buf` abort exactly
when the byte range is not fully contained in the arena; the block
primitives `memset`, `memcpy` and `memmove` perform no containment
check: every byte of the destination range is written — `memset` with
the fill byte, `memcpy`/`memmove` with the byte read at the raw source
offset — whether or not either range lies inside the arena. -/
theorem c2_typed_access_bounds (m : Mem) (addr n len vbytes : Nat)
    (idx src value length : Int) (a : Nat)
    (hlo : toUsize idx ≤ a) (hhi : a < toUsize idx + toUsize length) :
    (m.load addr n = none ↔ m.size < addr + n) ∧
    (m.store addr n vbytes = none ↔ m.size < addr + n) ∧
    (m.getBuf addr len = none ↔ m.size < addr + len) ∧
    (m.memset idx value length).bytes a = toU8 value ∧
    (m.memcpy idx src length).bytes a = m.bytes (toUsize src + (a - toUsize idx)) ∧
    (m.memmove idx src length).bytes a = m.bytes (toUsize src + (a - toUsize idx)) := by
  refine ⟨?_, ?_, ?_, ?_, ?_, ?_⟩
  · unfold Mem.load
    split_ifs with h
    · simp only [reduceCtorEq, false_iff]; omega
    · simp only [true_iff]; omega
  · unfold Mem.store
    split_ifs with h
    · simp only [reduceCtorEq, false_iff]; omega
    · simp only [true_iff]; omega
  · unfold Mem.getBuf
    split_ifs with h
    · simp only [reduceCtorEq, false_iff]; omega
    · simp only [true_iff]; omega
  · unfold Mem.memset
    exact if_pos ⟨hlo, hhi⟩
  · unfold Mem.memcpy
    exact if_pos ⟨hlo, hhi⟩
  · unfold Mem.memmove
    exact if_pos ⟨hlo, hhi⟩

theorem c2_typed_access_bounds_witness :
    ((⟨4, fun _ => 0⟩ : Mem).load 2 4 = none ↔ (⟨4, fun _ => 0⟩ : Mem).size < 2 + 4) ∧
    ((⟨4, fun _ => 0⟩ : Mem).store 2 4 9 = none ↔ (⟨4, fun _ => 0⟩ : Mem).size < 2 + 4) ∧
    ((⟨4, fun _ => 0⟩ : Mem).getBuf 2 4 = none ↔ (⟨4, fun _ => 0⟩ : Mem).size < 2 + 4) ∧
    ((⟨4, fun _ => 0⟩ : Mem).memset 5 9 2).bytes 6 = toU8 9 ∧
    ((⟨4, fun _ => 0⟩ : Mem).memcpy 5 1 2).bytes 6 =
      (⟨4, fun _ => 0⟩ : Mem).bytes (toUsize 1 + (6 - toUsize 5)) ∧
    ((⟨4, fun _ => 0⟩ : Mem).memmove 5 1 2).bytes 6 =
      (⟨4, fun _ => 0⟩ : Mem).bytes (toUsize 1 + (6 - toUsize 5)) :=
  c2_typed_access_bounds ⟨4, fun _ => 0⟩ 2 4 4 9 5 1 9 2 6 (by decide) (by decide)

/-- C6 (counterexample): with FCSR mode RNE and x5 = 1 (the encoding of
RTZ), `fsrm x5, x5` leaves the FCSR mode at RNE — not at the RTZ the
register held before the instruction — because the old mode is written
to `rd` before `rs1` is read. -/
theorem c6_fsrm_alias_counterexample :
    (mkState fun i => if i = 5 then 1 else 0).gp.read 5 = 1 ∧
    RoundingMode.tryFrom 1 = some .RTZ ∧
    (execFsrm (mkState fun i => if i = 5 then 1 else 0) 5 5).map (fun s => s.fp.fcsr.rm) =
      some .RNE ∧
    ¬ (execFsrm (mkState fun i => if i = 5 then 1 else 0) 5 5).map (fun s => s.fp.fcsr.rm) =
        some .RTZ := by
  refine ⟨by decide, rfl, by decide, by decide⟩

/-- C6 (amended): `fsrm` writes the previous rounding mode to `rd` and
installs the (valid) mode read from `rs1` — provided `rd` and `rs1` are
different registers or `rd` is x0; when `rd = rs1 ≠ x0` the write to
`rd` happens first, so the mode read back is the old one and the FCSR
rounding mode is left unchanged. -/
theorem c6_fsrm_returns_previous_mode (st : Core32) (rd rs1 : Nat)
    (m : RoundingMode) :
    ((rd ≠ rs1 ∨ rd = 0) → RoundingMode.tryFrom (st.gp.read rs1) = some m →
      execFsrm st rd rs1 =
        some { st with
               gp := st.gp.write rd st.fp.fcsr.rm.toInt,
               fp := { st.fp with fcsr := { st.fp.fcsr with rm := m } } }) ∧
    (rd = rs1 → rd ≠ 0 →
      execFsrm st rd rs1 =
        some { st with gp := st.gp.write rd st.fp.fcsr.rm.toInt }) := by
  constructor
  · intro h hm
    have hread : (st.gp.write rd st.fp.fcsr.rm.toInt).read rs1 = st.gp.read rs1 := by
      rcases h with h | h
      · exact Regfile.read_write_other st.gp _ (Ne.symm h)
      · rw [h, Regfile.write_zero]
    simp only [execFsrm]
    rw [hread, hm]
  · intro h h0
    subst h
    have hread : (st.gp.write rd st.fp.fcsr.rm.toInt).read rd = st.fp.fcsr.rm.toInt :=
      Regfile.read_write_self st.gp _ h0
    simp only [execFsrm]
    rw [hread, RoundingMode.tryFrom_toInt]

/-- The concrete machine used to witness C6: x6 holds 2 (RDN). -/
def fsrmSt : Core32 := mkState fun i => if i = 6 then 2 else 0

theorem c6_fsrm_returns_previous_mode_witness :
    execFsrm fsrmSt 5 6 =
      some { fsrmSt with
             gp := fsrmSt.gp.write 5 fsrmSt.fp.fcsr.rm.toInt,
             fp := { fsrmSt.fp with fcsr := { fsrmSt.fp.fcsr with rm := .RDN } } } :=
  (c6_fsrm_returns_previous_mode fsrmSt 5 6 .RDN).1 (Or.inl (by decide)) (by decide)

/-- A matched symbol entry is untouched by a scan step for a different
name. -/
theorem interceptEntry_scanStep (acc : Intercepts) (sv : String × Nat)
    (k : InterceptKind) (h : sv.1 ≠ interceptSymbol k) :
    interceptEntry (scanStep acc sv) k = interceptEntry acc k := by
  cases k <;> simp only [interceptSymbol] at h <;>
    unfold scanStep <;> split <;> simp_all [interceptEntry]

/-- A symbol name absent from the list leaves its entry at the
accumulator's value through the whole scan. -/
theorem interceptEntry_foldl (syms : List (String × Nat)) (acc : Intercepts)
    (k : InterceptKind) (h : interceptSymbol k ∉ syms.map Prod.fst) :
    interceptEntry (syms.foldl scanStep acc) k = interceptEntry acc k := by
  induction syms generalizing acc with
  | nil => rfl
  | cons hd tl ih =>
      simp only [List.map_cons, List.mem_cons] at h
      push_neg at h
      rw [List.foldl_cons, ih _ h.2,
        interceptEntry_scanStep _ _ _ (fun he => h.1 he.symm)]

/-- C10: an intercept symbol absent from the guest ELF leaves its table
entry at 0, and a `Call` to target 0 from a calling instruction not at
pc 0 then runs the host routine of the first zero-valued entry in the
order memset, memcpy, memmove, cos, sin (rather than jumping to 0). -/
theorem c10_absent_symbol_zero_dispatch (syms : List (String × Nat))
    (k k' : InterceptKind) (hostCos hostSin : Nat → Nat) (st : Core32)
    (habs : interceptSymbol k ∉ syms.map Prod.fst)
    (hit : st.intercepts = scanIntercepts syms)
    (hpc : st.pc ≠ 0)
    (hk' : firstZeroEntry st.intercepts = some k') :
    interceptEntry st.intercepts k = 0 ∧
    handleCall hostCos hostSin st 0 = .next (applyIntercept hostCos hostSin k' st) := by
  constructor
  · rw [hit]
    unfold scanIntercepts
    rw [interceptEntry_foldl _ _ _ habs]
    cases k <;> rfl
  · unfold firstZeroEntry at hk'
    split_ifs at hk' with hm1 hm2 hm3 hm4 hm5 <;>
      injection hk' with hk' <;> subst hk' <;>
      simp [handleCall, applyIntercept, hpc, hm1, eq_comm]
    · simp [hm2, eq_comm]
    · simp [hm2, hm3, eq_comm]
    · simp [hm2, hm3, hm4, eq_comm]
    · simp [hm2, hm3, hm4, hm5, eq_comm]

/-- The concrete loading used to witness C10: the guest defines only
`memcpy` and `cos`; `memset` is absent, so its entry is 0 and is the
first zero entry. -/
def c10Syms : List (String × Nat) := [("memcpy", 64), ("cos", 128)]

/-- The witnessing state: intercepts from `c10Syms`, calling pc 8. -/
def c10St : Core32 :=
  { mkState (fun _ => 0) with pc := 8, intercepts := scanIntercepts c10Syms }

theorem c10_absent_symbol_zero_dispatch_witness :
    interceptEntry c10St.intercepts .memset = 0 ∧
    handleCall id id c10St 0 = .next (applyIntercept id id .memset c10St) :=
  c10_absent_symbol_zero_dispatch c10Syms .memset .memset id id c10St
    (by decide) rfl (by decide) (by decide)

end Riscy
